import Mathlib

/-!
# Verification of the retirement Monte Carlo simulator

Shallow embedding of `retirement_simulator.py`.  The script's floating-point
arithmetic is modelled with exact rationals (and exact reals for the
triangular duration sampler, whose algorithm takes a square root); Python's
`int(...)` conversion is truncation toward zero.  Randomness is made
explicit: each simulation run consumes one `RunDraw` from a supplied stream,
holding the uniformly drawn start year (`random.randrange`) and the already
truncated triangular duration sample.  The triangular sampler itself,
`random.triangular`, is embedded separately (`pyTriangular`) following the
CPython implementation.
-/

namespace RetirementSim

/-- Python `int()` on an exact rational value: truncation toward zero. -/
def pyInt (q : ℚ) : ℤ := if q < 0 then ⌈q⌉ else ⌊q⌋

/-- Validated scalar inputs of the simulation (`start_value`, `withdrawal`
are the integers parsed from the digit-checked input strings). -/
structure Params where
  start_value : ℤ
  withdrawal : ℤ
  min_years : ℕ
  most_likely_years : ℕ
  max_years : ℕ
  num_sim : ℕ

/-- The randomness one simulation run consumes: the start year drawn by
`random.randrange(0, len(returns))` and the duration
`int(random.triangular(min_years, max_years, most_likely_years))`. -/
structure RunDraw where
  start_year : ℕ
  duration : ℕ

/-- `xs[i % len(xs)]` — cyclic indexing into a historical series
(lines 107–108 of the source). -/
def cycGet (xs : List ℚ) (i : ℕ) : ℚ := xs.getD (i % xs.length) 0

/-- The per-run list `lifespan_returns` (line 107): for every offset `i` in
`range(start_year, start_year + duration)`, the entry `returns[i % len(returns)]`. -/
def lifespan_returns (returns : List ℚ) (start_year duration : ℕ) : List ℚ :=
  (List.range' start_year duration).map (cycGet returns)

/-- The per-run list `lifespan_infl` (line 108): for every offset `i` in
`range(start_year, start_year + duration)`, the entry `infl_rate[i % len(infl_rate)]`. -/
def lifespan_infl (infl_rate : List ℚ) (start_year duration : ℕ) : List ℚ :=
  (List.range' start_year duration).map (cycGet infl_rate)

/-- Lines 114–117: the year's `withdrawal_infl` — the base `withdrawal`
when `index == 0`, otherwise the previous year's amount grown by
`(1 + infl)` and truncated by `int()`. -/
def withdrawalInfl (withdrawal : ℤ) (index : ℕ) (wPrev : ℤ) (infl : ℚ) : ℤ :=
  if index = 0 then withdrawal else pyInt ((wPrev : ℚ) * (1 + infl))

/-- Lines 119–120: `investments -= withdrawal_infl` followed by
`investments = int(investments * (1 + i))`. -/
def yearGrowth (investments withdrawal_infl : ℤ) (ret : ℚ) : ℤ :=
  pyInt (((investments - withdrawal_infl : ℤ) : ℚ) * (1 + ret))

/-- The year loop of one run (lines 111–124).  Arguments: the base
withdrawal, the remaining `(return, inflation)` pairs, the current `index`,
the previous year's `withdrawal_infl` (unused when `index = 0`) and the
current `investments`.  Returns the final `investments` together with the
`bankrupt` flag; a run stops (`break`) as soon as `investments <= 0`. -/
def runYears (withdrawal : ℤ) : List (ℚ × ℚ) → ℕ → ℤ → ℤ → ℤ × Bool
  | [], _, _, investments => (investments, false)
  | (ret, infl) :: rest, index, wPrev, investments =>
    if yearGrowth investments (withdrawalInfl withdrawal index wPrev infl) ret ≤ 0 then
      (yearGrowth investments (withdrawalInfl withdrawal index wPrev infl) ret, true)
    else
      runYears withdrawal rest (index + 1) (withdrawalInfl withdrawal index wPrev infl)
        (yearGrowth investments (withdrawalInfl withdrawal index wPrev infl) ret)

/-- One simulation run (the body of the `while` loop, lines 95–124):
build the lifespan lists from the drawn start year and duration, then run
the year loop starting from `start_value`. -/
def oneRun (p : Params) (returns infl_rate : List ℚ) (d : RunDraw) : ℤ × Bool :=
  runYears p.withdrawal
    ((lifespan_returns returns d.start_year d.duration).zip
      (lifespan_infl infl_rate d.start_year d.duration))
    0 0 p.start_value

/-- The `while sim_count < num_sim` loop (lines 94–132), running the runs
with index `k, k+1, …` while `n` runs remain: appends `0` and increments
`bankrupt_count` for a bankrupt run, else appends the final `investments`. -/
def simFrom (p : Params) (returns infl_rate : List ℚ) (draws : ℕ → RunDraw) :
    ℕ → ℕ → List ℤ × ℕ
  | _, 0 => ([], 0)
  | k, Nat.succ n =>
    if (oneRun p returns infl_rate (draws k)).2 then
      (0 :: (simFrom p returns infl_rate draws (k + 1) n).1,
        (simFrom p returns infl_rate draws (k + 1) n).2 + 1)
    else
      ((oneRun p returns infl_rate (draws k)).1
          :: (simFrom p returns infl_rate draws (k + 1) n).1,
        (simFrom p returns infl_rate draws (k + 1) n).2)

/-- `simulator` (lines 88–134): the outcome list and the bankrupt count of
`num_sim` runs. -/
def simulator (p : Params) (returns infl_rate : List ℚ) (draws : ℕ → RunDraw) :
    List ℤ × ℕ :=
  simFrom p returns infl_rate draws 0 p.num_sim

/-- The year-ordering validation (lines 77–81): the program continues iff
`min_years < most_likely_years < max_years` holds and `max_years > 99` does
not. -/
def years_check (min_years most_likely_years max_years : ℕ) : Bool :=
  (decide (min_years < most_likely_years) && decide (most_likely_years < max_years))
    && !(decide (99 < max_years))

/-- The withdrawal validation (lines 82–85): continue iff `withdrawal < start_value`. -/
def withdrawal_check (withdrawal start_value : ℕ) : Bool :=
  decide (withdrawal < start_value)

/-- The whole post-parsing input validation (lines 77–85).  `num_sim` is
accepted whenever it parsed as digits: no constraint is imposed on it. -/
def inputs_accepted (min_years most_likely_years max_years withdrawal start_value
    _num_sim : ℕ) : Bool :=
  years_check min_years most_likely_years max_years
    && withdrawal_check withdrawal start_value

/-- Python's `round` to the nearest integer, half to even. -/
def pyRoundHalfEven (q : ℚ) : ℤ :=
  if q - ⌊q⌋ < 1 / 2 then ⌊q⌋
  else if 1 / 2 < q - ⌊q⌋ then ⌊q⌋ + 1
  else if Even ⌊q⌋ then ⌊q⌋ else ⌊q⌋ + 1

/-- Python's `round(x, 1)`: one decimal digit, half to even. -/
def pyRound1 (q : ℚ) : ℚ := (pyRoundHalfEven (10 * q) : ℚ) / 10

/-- The statistics printed by `bankrupt_prob`. -/
structure Stats where
  odds : ℚ
  average : ℤ
  minimum : ℤ
  maximum : ℤ

/-- `bankrupt_prob` (lines 137–150): on an empty outcome list the division
`100 * bankrupt_count / total` raises `ZeroDivisionError`, modelled as
`none`; otherwise the odds, the truncated average `int(sum(outcome)/total)`,
and the minimum/maximum outcome. -/
def bankrupt_prob (outcome : List ℤ) (bankrupt_count : ℕ) : Option Stats :=
  match outcome with
  | [] => none
  | x :: xs =>
    some { odds := pyRound1 ((100 * (bankrupt_count : ℚ)) / ((x :: xs).length : ℚ)),
           average := pyInt (((x :: xs).sum : ℚ) / ((x :: xs).length : ℚ)),
           minimum := xs.foldl min x,
           maximum := xs.foldl max x }

/-- Spec-side sequence, following the claim's words: the withdrawal of the
year at 0-based `index`: the base `withdrawal` at index 0, otherwise the
previous year's withdrawal grown by `(1 + infl)` and truncated toward zero.
`infls` is the per-run inflation list indexed by year index. -/
def specWithdrawal (withdrawal : ℤ) (infls : List ℚ) : ℕ → ℤ
  | 0 => withdrawal
  | j + 1 => pyInt ((specWithdrawal withdrawal infls j : ℚ) * (1 + infls.getD (j + 1) 0))

/-- Spec-side sequence, following the claim's words: the portfolio value
after the year at 0-based `index`: subtract that year's withdrawal, then
grow by `(1 + return)` and truncate toward zero. -/
def specPortfolio (start_value withdrawal : ℤ) (rets infls : List ℚ) : ℕ → ℤ
  | 0 => pyInt (((start_value - withdrawal : ℤ) : ℚ) * (1 + rets.getD 0 0))
  | j + 1 =>
    pyInt (((specPortfolio start_value withdrawal rets infls j
        - specWithdrawal withdrawal infls (j + 1) : ℤ) : ℚ) * (1 + rets.getD (j + 1) 0))

/-- Spec-side description of a whole run over per-run lists `rets`/`infls`
of equal length: the run ends at the first index whose portfolio value is
`≤ 0` (bankrupt, no further years processed), otherwise runs all years and
ends solvent with the last portfolio value (the unchanged `start_value`
when there are no years at all). -/
def specRun (start_value withdrawal : ℤ) (rets infls : List ℚ) : ℤ × Bool :=
  match (List.range rets.length).find?
      (fun j => decide (specPortfolio start_value withdrawal rets infls j ≤ 0)) with
  | some j => (specPortfolio start_value withdrawal rets infls j, true)
  | none =>
    (if rets.length = 0 then start_value
     else specPortfolio start_value withdrawal rets infls (rets.length - 1), false)

open Classical in
/-- Python `int()` on a real value: truncation toward zero (used on the
triangular duration sample, line 97). -/
noncomputable def pyIntR (x : ℝ) : ℤ :=
  if x < 0 then ⌈x⌉ else ⌊x⌋

open Classical in
/-- CPython's `random.triangular(low, high, mode)` on the uniform draw
`u = random() ∈ [0, 1)`, in exact real arithmetic: with
`c = (mode - low) / (high - low)`, if `u > c` the roles of `low`/`high`
and of `u`/`c` are reflected, and the result is
`low + (high - low) * sqrt(u * c)`. -/
noncomputable def pyTriangular (low high mode u : ℝ) : ℝ :=
  if (mode - low) / (high - low) < u then
    high + (low - high) * Real.sqrt ((1 - u) * (1 - (mode - low) / (high - low)))
  else
    low + (high - low) * Real.sqrt (u * ((mode - low) / (high - low)))

/-- Lines 97–98: `duration = int(random.triangular(min_years, max_years,
most_likely_years))` — the triangular sample truncated toward zero. -/
noncomputable def sampled_duration (min_years max_years most_likely_years : ℕ)
    (u : ℝ) : ℤ :=
  pyIntR (pyTriangular (min_years : ℝ) (max_years : ℝ) (most_likely_years : ℝ) u)

/-! ## Helper lemmas about the simulation loop -/

theorem simFrom_length_count (p : Params) (returns infl_rate : List ℚ)
    (draws : ℕ → RunDraw) :
    ∀ n k, (simFrom p returns infl_rate draws k n).1.length = n ∧
      (simFrom p returns infl_rate draws k n).2 ≤ n := by
  intro n
  induction n with
  | zero => intro k; exact ⟨rfl, Nat.le_refl 0⟩
  | succ n ih =>
    intro k
    have h := ih (k + 1)
    by_cases hb : (oneRun p returns infl_rate (draws k)).2
    · simp only [simFrom, if_pos hb, List.length_cons]
      omega
    · simp only [simFrom, if_neg hb, List.length_cons]
      omega

theorem runYears_pos (w : ℤ) :
    ∀ (L : List (ℚ × ℚ)) (index : ℕ) (wPrev investments : ℤ), 0 < investments →
      (runYears w L index wPrev investments).2 = false →
      0 < (runYears w L index wPrev investments).1 := by
  intro L
  induction L with
  | nil => intro _ _ _ hinv _; exact hinv
  | cons pair rest ih =>
    intro index wPrev investments hinv hb
    obtain ⟨ret, infl⟩ := pair
    by_cases h : yearGrowth investments (withdrawalInfl w index wPrev infl) ret ≤ 0
    · simp only [runYears, if_pos h] at hb
      exact Bool.noConfusion hb
    · simp only [runYears, if_neg h] at hb ⊢
      exact ih (index + 1) _ _ (by omega) hb

theorem oneRun_pos (p : Params) (returns infl_rate : List ℚ) (d : RunDraw)
    (hs : 0 < p.start_value) (hb : (oneRun p returns infl_rate d).2 = false) :
    0 < (oneRun p returns infl_rate d).1 :=
  runYears_pos _ _ _ _ _ hs hb

theorem simFrom_outcome_dichotomy (p : Params) (returns infl_rate : List ℚ)
    (draws : ℕ → RunDraw) (hs : 0 < p.start_value) :
    ∀ n k x, x ∈ (simFrom p returns infl_rate draws k n).1 → x = 0 ∨ 0 < x := by
  intro n
  induction n with
  | zero => intro k x hx; simp [simFrom] at hx
  | succ n ih =>
    intro k x hx
    by_cases hb : (oneRun p returns infl_rate (draws k)).2
    · simp only [simFrom, if_pos hb, List.mem_cons] at hx
      rcases hx with h | h
      · exact Or.inl h
      · exact ih (k + 1) x h
    · simp only [simFrom, if_neg hb, List.mem_cons] at hx
      rcases hx with h | h
      · exact Or.inr (h ▸ oneRun_pos p returns infl_rate (draws k) hs (by simpa using hb))
      · exact ih (k + 1) x h

theorem simFrom_count_zero (p : Params) (returns infl_rate : List ℚ)
    (draws : ℕ → RunDraw) (hs : 0 < p.start_value) :
    ∀ n k, (simFrom p returns infl_rate draws k n).2 =
      (simFrom p returns infl_rate draws k n).1.count 0 := by
  intro n
  induction n with
  | zero => intro k; rfl
  | succ n ih =>
    intro k
    by_cases hb : (oneRun p returns infl_rate (draws k)).2
    · simp only [simFrom, if_pos hb, List.count_cons_self]
      exact congrArg (· + 1) (ih (k + 1))
    · have hpos := oneRun_pos p returns infl_rate (draws k) hs (by simpa using hb)
      simp only [simFrom, if_neg hb]
      rw [List.count_cons_of_ne (by omega)]
      exact ih (k + 1)

/-! ## The year loop computes the spec-side recurrences (claim C2) -/

theorem runYears_tail (w s : ℤ) (rets infls : List ℚ) (h : rets.length = infls.length) :
    ∀ (m j : ℕ), j + 1 + m = rets.length →
      runYears w ((rets.drop (j + 1)).zip (infls.drop (j + 1))) (j + 1)
          (specWithdrawal w infls j) (specPortfolio s w rets infls j) =
        match (List.range' (j + 1) m).find?
            (fun j2 => decide (specPortfolio s w rets infls j2 ≤ 0)) with
        | some j2 => (specPortfolio s w rets infls j2, true)
        | none => (specPortfolio s w rets infls (rets.length - 1), false) := by
  intro m
  induction m with
  | zero =>
    intro j hj
    have h1 : rets.drop (j + 1) = [] := List.drop_eq_nil_of_le (by omega)
    have h2 : rets.length - 1 = j := by omega
    rw [h1, h2]
    rfl
  | succ m ih =>
    intro j hj
    have hjr : j + 1 < rets.length := by omega
    have hjf : j + 1 < infls.length := by omega
    have hw : withdrawalInfl w (j + 1) (specWithdrawal w infls j) infls[j + 1] =
        specWithdrawal w infls (j + 1) := by
      simp [withdrawalInfl, specWithdrawal, List.getElem?_eq_getElem hjf]
    have hp : yearGrowth (specPortfolio s w rets infls j)
        (specWithdrawal w infls (j + 1)) rets[j + 1] =
        specPortfolio s w rets infls (j + 1) := by
      simp [yearGrowth, specPortfolio, List.getElem?_eq_getElem hjr]
    rw [List.drop_eq_getElem_cons hjr, List.drop_eq_getElem_cons hjf,
      List.zip_cons_cons, List.range'_succ]
    simp only [runYears, hw, hp]
    by_cases h0 : specPortfolio s w rets infls (j + 1) ≤ 0
    · rw [if_pos h0, List.find?_cons_of_pos _ (by simpa using h0)]
    · rw [if_neg h0, List.find?_cons_of_neg _ (by simpa using h0)]
      exact ih (j + 1) (by omega)

theorem runYears_eq_specRun (w s : ℤ) (rets infls : List ℚ)
    (h : rets.length = infls.length) :
    runYears w (rets.zip infls) 0 0 s = specRun s w rets infls := by
  match rets, infls with
  | [], _ => rfl
  | a :: as, [] => exact absurd h (by simp)
  | a :: as, b :: bs =>
    have hwi : withdrawalInfl w 0 0 b = w := rfl
    have hp0 : yearGrowth s w a = specPortfolio s w (a :: as) (b :: bs) 0 := by
      simp [yearGrowth, specPortfolio]
    have hrange : List.range ((a :: as).length) = 0 :: List.range' 1 as.length := by
      rw [List.length_cons, List.range_eq_range', List.range'_succ]
    rw [List.zip_cons_cons]
    simp only [runYears, hwi, hp0, specRun, hrange]
    by_cases h0 : specPortfolio s w (a :: as) (b :: bs) 0 ≤ 0
    · rw [if_pos h0, List.find?_cons_of_pos _ (by simpa using h0)]
    · rw [if_neg h0, List.find?_cons_of_neg _ (by simpa using h0)]
      have htail := runYears_tail w s (a :: as) (b :: bs) (by simpa using h)
        as.length 0 (by simp; omega)
      have hdrop : (a :: as).drop (0 + 1) = as := rfl
      have hdropb : (b :: bs).drop (0 + 1) = bs := rfl
      rw [hdrop, hdropb] at htail
      have hw0 : specWithdrawal w (b :: bs) 0 = w := rfl
      rw [hw0] at htail
      rw [htail]
      cases hfind : (List.range' 1 as.length).find?
          (fun j => decide (specPortfolio s w (a :: as) (b :: bs) j ≤ 0)) with
      | none => simp [hfind]
      | some j2 => simp [hfind]

/-- Claim C2: within every simulated year of every run the operations are
applied in the claimed order — withdrawal (base at index 0, otherwise the
previous withdrawal grown by `(1 + infl)` and truncated toward zero), then
subtraction, then growth by `(1 + return)` truncated toward zero — and the
run stops at the first year whose resulting portfolio is `≤ 0`.  The
code's year loop equals the recurrences `specWithdrawal`/`specPortfolio`
written from the claim's words. -/
theorem C2_year_order (p : Params) (returns infl_rate : List ℚ) (d : RunDraw) :
    oneRun p returns infl_rate d =
      specRun p.start_value p.withdrawal
        (lifespan_returns returns d.start_year d.duration)
        (lifespan_infl infl_rate d.start_year d.duration) := by
  unfold oneRun
  apply runYears_eq_specRun
  simp [lifespan_returns, lifespan_infl]

/-! ## Claim theorems (first batch) -/

/-- Claim C1: for valid parameters with `num_sim = n ≥ 1`, `simulator`
returns an outcome sequence of length exactly `n` together with a bankrupt
count `b` with `0 ≤ b ≤ n`. -/
theorem C1_result_shape (p : Params) (returns infl_rate : List ℚ)
    (draws : ℕ → RunDraw) (hn : 1 ≤ p.num_sim) :
    (simulator p returns infl_rate draws).1.length = p.num_sim ∧
      0 ≤ (simulator p returns infl_rate draws).2 ∧
      (simulator p returns infl_rate draws).2 ≤ p.num_sim := by
  have h := simFrom_length_count p returns infl_rate draws p.num_sim 0
  exact ⟨h.1, Nat.zero_le _, h.2⟩

theorem C1_result_shape_witness :
    (simulator ⟨100000, 10000, 10, 20, 30, 2⟩ [1/10, -1/20] [1/50]
        (fun _ => ⟨0, 3⟩)).1.length = 2 ∧
      0 ≤ (simulator ⟨100000, 10000, 10, 20, 30, 2⟩ [1/10, -1/20] [1/50]
        (fun _ => ⟨0, 3⟩)).2 ∧
      (simulator ⟨100000, 10000, 10, 20, 30, 2⟩ [1/10, -1/20] [1/50]
        (fun _ => ⟨0, 3⟩)).2 ≤ 2 :=
  C1_result_shape ⟨100000, 10000, 10, 20, 30, 2⟩ [1/10, -1/20] [1/50]
    (fun _ => ⟨0, 3⟩) (by decide)

/-- Claim C3: under valid parameters (positive starting value) every
reported outcome is either exactly `0` (a bankrupt run) or strictly
positive (the final portfolio of a solvent run). -/
theorem C3_outcome_dichotomy (p : Params) (returns infl_rate : List ℚ)
    (draws : ℕ → RunDraw) (hs : 0 < p.start_value) :
    ∀ x ∈ (simulator p returns infl_rate draws).1, x = 0 ∨ 0 < x := by
  intro x hx
  exact simFrom_outcome_dichotomy p returns infl_rate draws hs p.num_sim 0 x hx

theorem C3_outcome_dichotomy_witness :
    (100000 : ℤ) = 0 ∨ 0 < (100000 : ℤ) :=
  C3_outcome_dichotomy ⟨100000, 10000, 10, 20, 30, 1⟩ [] [] (fun _ => ⟨0, 0⟩)
    (by decide) 100000 (by decide)

/-- Claim C4 (code bug): the input validation accepts `num_sim = 0`
(no constraint on `num_sim` exists beyond it being digits), the simulator
then returns an empty outcome list, and `bankrupt_prob` reaches the
division `100 * bankrupt_count / total` with `total = 0` — a
`ZeroDivisionError` (modelled as `none`) instead of the validation error
the spec requires before aggregation. -/
theorem C4_num_sim_zero_reaches_aggregation :
    inputs_accepted 10 20 30 10000 100000 0 = true ∧
      simulator ⟨100000, 10000, 10, 20, 30, 0⟩ [1/10] [1/50] (fun _ => ⟨0, 5⟩)
        = ([], 0) ∧
      bankrupt_prob [] 0 = none :=
  ⟨by decide, rfl, rfl⟩

/-- Claim C5, counterexample: the code accepts `min_years = 1,
most_likely_years = 2, max_years = 99`, although the claimed constraint
`min < most_likely < max < 99` is violated (`99 < 99` is false), so an
input with `max_years ≥ 99` is not always rejected. -/
theorem C5_maxyears99_counterexample :
    years_check 1 2 99 = true ∧ ¬(1 < 2 ∧ 2 < 99 ∧ 99 < 99) := by
  decide

/-- Claim C5, amended: the year validation passes iff
`min_years < most_likely_years < max_years ≤ 99`; equivalently the program
terminates fatally on the years check exactly when that ordering fails or
`max_years > 99`.  In particular `max_years ≥ 100` is rejected, but
`max_years = 99` is accepted. -/
theorem C5_years_check_amended (a b c : ℕ) :
    years_check a b c = true ↔ a < b ∧ b < c ∧ c ≤ 99 := by
  simp only [years_check, Bool.and_eq_true, Bool.not_eq_eq_eq_not, Bool.not_true,
    decide_eq_true_eq, decide_eq_false_iff_not]
  omega

/-- Claim C6: the return applied at position `k` of a run's lifespan is
`returns[(start_year + k) % len(returns)]` and the inflation applied is
`infl_rate[(start_year + k) % len(infl_rate)]` — each series wraps
cyclically modulo its own length. -/
theorem C6_cyclic_indexing (returns infl_rate : List ℚ)
    (start_year duration k : ℕ) (hk : k < duration) :
    (lifespan_returns returns start_year duration)[k]? =
        some (returns.getD ((start_year + k) % returns.length) 0) ∧
      (lifespan_infl infl_rate start_year duration)[k]? =
        some (infl_rate.getD ((start_year + k) % infl_rate.length) 0) := by
  constructor
  · simp [lifespan_returns, List.getElem?_map, List.getElem?_range' _ _ hk,
      cycGet, Nat.one_mul]
  · simp [lifespan_infl, List.getElem?_map, List.getElem?_range' _ _ hk,
      cycGet, Nat.one_mul]

theorem C6_cyclic_indexing_witness :
    (lifespan_returns [1/10, 2/10] 1 3)[2]? =
        some (([1/10, 2/10] : List ℚ).getD ((1 + 2) % ([1/10, 2/10] : List ℚ).length) 0) ∧
      (lifespan_infl [3/100] 1 3)[2]? =
        some (([3/100] : List ℚ).getD ((1 + 2) % ([3/100] : List ℚ).length) 0) :=
  C6_cyclic_indexing [1/10, 2/10] [3/100] 1 3 2 (by decide)

/-- Claim C9: the simulator is deterministic — identical parameters,
identical series and an identical random-draw stream yield identical
outcome sequences and bankrupt counts. -/
theorem C9_deterministic (p₁ p₂ : Params) (r₁ r₂ f₁ f₂ : List ℚ)
    (d₁ d₂ : ℕ → RunDraw) (hp : p₁ = p₂) (hr : r₁ = r₂) (hf : f₁ = f₂)
    (hd : ∀ k, d₁ k = d₂ k) :
    simulator p₁ r₁ f₁ d₁ = simulator p₂ r₂ f₂ d₂ := by
  subst hp; subst hr; subst hf
  rw [funext hd]

theorem C9_deterministic_witness :
    simulator ⟨50000, 2000, 5, 10, 20, 2⟩ [1/10] [1/50] (fun _ => ⟨0, 2⟩) =
      simulator ⟨50000, 2000, 5, 10, 20, 2⟩ [1/10] [1/50] (fun _ => ⟨0, 2⟩) :=
  C9_deterministic ⟨50000, 2000, 5, 10, 20, 2⟩ ⟨50000, 2000, 5, 10, 20, 2⟩
    [1/10] [1/10] [1/50] [1/50] (fun _ => ⟨0, 2⟩) (fun _ => ⟨0, 2⟩)
    rfl rfl rfl (fun _ => rfl)

/-- Claim C10: the bankrupt count equals the number of `0` entries of the
outcome sequence — a solvent run can never be reported as `0`, because the
`investments <= 0` check runs after every simulated year. -/
theorem C10_count_eq_zeros (p : Params) (returns infl_rate : List ℚ)
    (draws : ℕ → RunDraw) (hs : 0 < p.start_value) :
    (simulator p returns infl_rate draws).2 =
      (simulator p returns infl_rate draws).1.count 0 :=
  simFrom_count_zero p returns infl_rate draws hs p.num_sim 0

theorem C10_count_eq_zeros_witness :
    (simulator ⟨100000, 10000, 10, 20, 30, 3⟩ [-1, 1/10] [1/50]
        (fun k => ⟨k, 4⟩)).2 =
      (simulator ⟨100000, 10000, 10, 20, 30, 3⟩ [-1, 1/10] [1/50]
        (fun k => ⟨k, 4⟩)).1.count 0 :=
  C10_count_eq_zeros ⟨100000, 10000, 10, 20, 30, 3⟩ [-1, 1/10] [1/50]
    (fun k => ⟨k, 4⟩) (by decide)

/-! ## Aggregator helpers (claim C7) -/

theorem foldl_min_le_init (xs : List ℤ) : ∀ a : ℤ, xs.foldl min a ≤ a := by
  induction xs with
  | nil => intro a; exact le_refl a
  | cons x xs ih =>
    intro a
    exact le_trans (ih (min a x)) (min_le_left a x)

theorem foldl_min_le_mem (xs : List ℤ) : ∀ a y, y ∈ xs → xs.foldl min a ≤ y := by
  induction xs with
  | nil => intro a y hy; exact absurd hy (List.not_mem_nil y)
  | cons x xs ih =>
    intro a y hy
    rcases List.mem_cons.1 hy with h | h
    · rw [h]
      exact le_trans (foldl_min_le_init xs (min a x)) (min_le_right a x)
    · exact ih (min a x) y h

theorem foldl_min_mem (xs : List ℤ) : ∀ a, xs.foldl min a ∈ a :: xs := by
  induction xs with
  | nil => intro a; exact List.mem_singleton.2 rfl
  | cons x xs ih =>
    intro a
    rcases List.mem_cons.1 (ih (min a x)) with h | h
    · rcases min_choice a x with hm | hm
      · exact List.mem_cons.2 (Or.inl (h.trans hm))
      · exact List.mem_cons.2 (Or.inr (List.mem_cons.2 (Or.inl (h.trans hm))))
    · exact List.mem_cons.2 (Or.inr (List.mem_cons.2 (Or.inr h)))

theorem le_foldl_max_init (xs : List ℤ) : ∀ a : ℤ, a ≤ xs.foldl max a := by
  induction xs with
  | nil => intro a; exact le_refl a
  | cons x xs ih =>
    intro a
    exact le_trans (le_max_left a x) (ih (max a x))

theorem mem_le_foldl_max (xs : List ℤ) : ∀ a y, y ∈ xs → y ≤ xs.foldl max a := by
  induction xs with
  | nil => intro a y hy; exact absurd hy (List.not_mem_nil y)
  | cons x xs ih =>
    intro a y hy
    rcases List.mem_cons.1 hy with h | h
    · rw [h]
      exact le_trans (le_max_right a x) (le_foldl_max_init xs (max a x))
    · exact ih (max a x) y h

theorem foldl_max_mem (xs : List ℤ) : ∀ a, xs.foldl max a ∈ a :: xs := by
  induction xs with
  | nil => intro a; exact List.mem_singleton.2 rfl
  | cons x xs ih =>
    intro a
    rcases List.mem_cons.1 (ih (max a x)) with h | h
    · rcases max_choice a x with hm | hm
      · exact List.mem_cons.2 (Or.inl (h.trans hm))
      · exact List.mem_cons.2 (Or.inr (List.mem_cons.2 (Or.inl (h.trans hm))))
    · exact List.mem_cons.2 (Or.inr (List.mem_cons.2 (Or.inr h)))

theorem mul_length_le_sum (l : List ℤ) (m : ℤ) (h : ∀ x ∈ l, m ≤ x) :
    m * (l.length : ℤ) ≤ l.sum := by
  induction l with
  | nil => simp
  | cons x xs ih =>
    have hx := h x (List.mem_cons_self x xs)
    have hxs := ih (fun y hy => h y (List.mem_cons_of_mem x hy))
    simp only [List.sum_cons, List.length_cons]
    push_cast
    linarith [hxs]

theorem sum_le_mul_length (l : List ℤ) (m : ℤ) (h : ∀ x ∈ l, x ≤ m) :
    l.sum ≤ m * (l.length : ℤ) := by
  induction l with
  | nil => simp
  | cons x xs ih =>
    have hx := h x (List.mem_cons_self x xs)
    have hxs := ih (fun y hy => h y (List.mem_cons_of_mem x hy))
    simp only [List.sum_cons, List.length_cons]
    push_cast
    linarith [hxs]

theorem le_pyRoundHalfEven (m : ℤ) (q : ℚ) (h : (m : ℚ) ≤ q) :
    m ≤ pyRoundHalfEven q := by
  have hfl : m ≤ ⌊q⌋ := Int.le_floor.2 h
  unfold pyRoundHalfEven
  split_ifs <;> omega

theorem pyRoundHalfEven_le (m : ℤ) (q : ℚ) (h : q ≤ (m : ℚ)) :
    pyRoundHalfEven q ≤ m := by
  have hfl : ⌊q⌋ ≤ m := by
    have := Int.floor_le_floor h
    simpa using this
  have key : ¬(q - (⌊q⌋ : ℚ) < 1 / 2) → ⌊q⌋ + 1 ≤ m := by
    intro hno
    rcases lt_or_eq_of_le hfl with h1 | h1
    · omega
    · exfalso
      apply hno
      rw [h1]
      have h2 : q - (m : ℚ) ≤ 0 := by linarith
      linarith
  unfold pyRoundHalfEven
  split_ifs with h1 h2 h3
  · exact hfl
  · exact key h1
  · exact hfl
  · exact key h1

/-- Claim C7: on a non-empty outcome list (with bankrupt count at most the
length and the entries non-negative, as the simulator guarantees),
`bankrupt_prob` yields `odds = round(100 * bankrupt_count / total, 1)`,
`average = floor(sum / total)` (the code's truncation equals the spec's
floor on non-negative outcomes), the list minimum and maximum, with
`0 ≤ odds ≤ 100` and `minimum ≤ average ≤ maximum`. -/
theorem C7_aggregator (x : ℤ) (xs : List ℤ) (bankrupt_count : ℕ)
    (hb : bankrupt_count ≤ (x :: xs).length) (hnn : ∀ y ∈ x :: xs, 0 ≤ y) :
    ∃ st : Stats, bankrupt_prob (x :: xs) bankrupt_count = some st ∧
      st.odds = pyRound1 ((100 * (bankrupt_count : ℚ)) / ((x :: xs).length : ℚ)) ∧
      st.average = ⌊(((x :: xs).sum : ℚ) / ((x :: xs).length : ℚ))⌋ ∧
      st.minimum ∈ x :: xs ∧ (∀ y ∈ x :: xs, st.minimum ≤ y) ∧
      st.maximum ∈ x :: xs ∧ (∀ y ∈ x :: xs, y ≤ st.maximum) ∧
      0 ≤ st.odds ∧ st.odds ≤ 100 ∧
      st.minimum ≤ st.average ∧ st.average ≤ st.maximum := by
  have hlen : (0 : ℚ) < ((x :: xs).length : ℚ) := by
    have : 0 < (x :: xs).length := List.length_pos.2 (List.cons_ne_nil x xs)
    exact_mod_cast this
  have hsum0 : (0 : ℤ) ≤ (x :: xs).sum := List.sum_nonneg hnn
  have hmean0 : (0 : ℚ) ≤ ((x :: xs).sum : ℚ) / ((x :: xs).length : ℚ) := by
    apply div_nonneg _ hlen.le
    exact_mod_cast hsum0
  have havg : pyInt (((x :: xs).sum : ℚ) / ((x :: xs).length : ℚ)) =
      ⌊(((x :: xs).sum : ℚ) / ((x :: xs).length : ℚ))⌋ := by
    unfold pyInt
    rw [if_neg (not_lt.2 hmean0)]
  have hminmem : xs.foldl min x ∈ x :: xs := foldl_min_mem xs x
  have hminle : ∀ y ∈ x :: xs, xs.foldl min x ≤ y := by
    intro y hy
    rcases List.mem_cons.1 hy with h | h
    · exact h ▸ foldl_min_le_init xs x
    · exact foldl_min_le_mem xs x y h
  have hmaxmem : xs.foldl max x ∈ x :: xs := foldl_max_mem xs x
  have hmaxle : ∀ y ∈ x :: xs, y ≤ xs.foldl max x := by
    intro y hy
    rcases List.mem_cons.1 hy with h | h
    · exact h ▸ le_foldl_max_init xs x
    · exact mem_le_foldl_max xs x y h
  have harg0 : (0 : ℚ) ≤ (100 * (bankrupt_count : ℚ)) / ((x :: xs).length : ℚ) := by
    apply div_nonneg _ hlen.le
    positivity
  have harg100 : (100 * (bankrupt_count : ℚ)) / ((x :: xs).length : ℚ) ≤ 100 := by
    rw [div_le_iff₀ hlen]
    have : (bankrupt_count : ℚ) ≤ ((x :: xs).length : ℚ) := by exact_mod_cast hb
    linarith
  have hodds0 : (0 : ℚ) ≤ pyRound1 ((100 * (bankrupt_count : ℚ)) / ((x :: xs).length : ℚ)) := by
    unfold pyRound1
    have h1 : (0 : ℤ) ≤ pyRoundHalfEven
        (10 * ((100 * (bankrupt_count : ℚ)) / ((x :: xs).length : ℚ))) := by
      apply le_pyRoundHalfEven
      push_cast
      linarith
    have h2 : (0 : ℚ) ≤ (pyRoundHalfEven
        (10 * ((100 * (bankrupt_count : ℚ)) / ((x :: xs).length : ℚ))) : ℚ) := by
      exact_mod_cast h1
    linarith
  have hodds100 : pyRound1 ((100 * (bankrupt_count : ℚ)) / ((x :: xs).length : ℚ)) ≤ 100 := by
    unfold pyRound1
    have h1 : pyRoundHalfEven
        (10 * ((100 * (bankrupt_count : ℚ)) / ((x :: xs).length : ℚ))) ≤ (1000 : ℤ) := by
      apply pyRoundHalfEven_le
      push_cast
      linarith
    have h2 : (pyRoundHalfEven
        (10 * ((100 * (bankrupt_count : ℚ)) / ((x :: xs).length : ℚ))) : ℚ) ≤ 1000 := by
      exact_mod_cast h1
    linarith
  have hminavg : xs.foldl min x ≤ ⌊(((x :: xs).sum : ℚ) / ((x :: xs).length : ℚ))⌋ := by
    apply Int.le_floor.2
    rw [le_div_iff₀ hlen]
    have := mul_length_le_sum (x :: xs) (xs.foldl min x) hminle
    exact_mod_cast this
  have havgmax : ⌊(((x :: xs).sum : ℚ) / ((x :: xs).length : ℚ))⌋ ≤ xs.foldl max x := by
    have hle : (((x :: xs).sum : ℚ) / ((x :: xs).length : ℚ)) ≤ ((xs.foldl max x : ℤ) : ℚ) := by
      rw [div_le_iff₀ hlen]
      have := sum_le_mul_length (x :: xs) (xs.foldl max x) hmaxle
      exact_mod_cast this
    have := Int.floor_le_floor hle
    simpa using this
  refine ⟨_, rfl, rfl, havg, hminmem, hminle, hmaxmem, hmaxle, hodds0, hodds100, ?_, ?_⟩
  · show List.foldl min x xs ≤ pyInt (((x :: xs).sum : ℚ) / ((x :: xs).length : ℚ))
    rw [havg]
    exact hminavg
  · show pyInt (((x :: xs).sum : ℚ) / ((x :: xs).length : ℚ)) ≤ List.foldl max x xs
    rw [havg]
    exact havgmax

theorem C7_aggregator_witness :
    ∃ st : Stats, bankrupt_prob [5, 0] 1 = some st ∧
      st.odds = pyRound1 ((100 * ((1 : ℕ) : ℚ)) / ((([5, 0] : List ℤ)).length : ℚ)) ∧
      st.average = ⌊(((([5, 0] : List ℤ)).sum : ℚ) / ((([5, 0] : List ℤ)).length : ℚ))⌋ ∧
      st.minimum ∈ ([5, 0] : List ℤ) ∧ (∀ y ∈ ([5, 0] : List ℤ), st.minimum ≤ y) ∧
      st.maximum ∈ ([5, 0] : List ℤ) ∧ (∀ y ∈ ([5, 0] : List ℤ), y ≤ st.maximum) ∧
      0 ≤ st.odds ∧ st.odds ≤ 100 ∧
      st.minimum ≤ st.average ∧ st.average ≤ st.maximum :=
  C7_aggregator 5 [0] 1 (by decide) (by decide)

/-! ## The triangular duration sampler (claim C8) -/

theorem pyTriangular_range (low high mode u : ℝ) (hlm : low < mode)
    (hmh : mode < high) (h0 : 0 ≤ u) (h1 : u < 1) :
    low ≤ pyTriangular low high mode u ∧ pyTriangular low high mode u < high := by
  have hlh : low < high := hlm.trans hmh
  unfold pyTriangular
  set c := (mode - low) / (high - low) with hc
  have hc0 : 0 < c := div_pos (by linarith) (by linarith)
  have hc1 : c < 1 := (div_lt_one (by linarith)).2 (by linarith)
  split_ifs with hcu
  · have hprod0 : 0 < (1 - u) * (1 - c) := mul_pos (by linarith) (by linarith)
    have hprod1 : (1 - u) * (1 - c) ≤ 1 := by nlinarith
    have hs0 : 0 < Real.sqrt ((1 - u) * (1 - c)) := Real.sqrt_pos.2 hprod0
    have hs1 : Real.sqrt ((1 - u) * (1 - c)) ≤ 1 := by
      calc Real.sqrt ((1 - u) * (1 - c)) ≤ Real.sqrt 1 := Real.sqrt_le_sqrt hprod1
      _ = 1 := Real.sqrt_one
    constructor
    · nlinarith
    · nlinarith
  · have hu : u ≤ c := not_lt.1 hcu
    have hprod0 : 0 ≤ u * c := mul_nonneg h0 hc0.le
    have hprod1 : u * c < 1 := by nlinarith
    have hs0 : 0 ≤ Real.sqrt (u * c) := Real.sqrt_nonneg _
    have hs1 : Real.sqrt (u * c) < 1 := by
      have h2 := Real.sqrt_lt_sqrt hprod0 hprod1
      simpa using h2
    constructor
    · nlinarith
    · nlinarith

/-- Claim C8: the duration is `int(random.triangular(min_years, max_years,
most_likely_years))` — low `min_years`, high `max_years`, mode
`most_likely_years` — and for every uniform draw `u ∈ [0, 1)` the truncated
sample lies in `[min_years, max_years)`. -/
theorem C8_duration_range (min_years most_likely_years max_years : ℕ) (u : ℝ)
    (hlm : min_years < most_likely_years) (hmh : most_likely_years < max_years)
    (h0 : 0 ≤ u) (h1 : u < 1) :
    (min_years : ℤ) ≤ sampled_duration min_years max_years most_likely_years u ∧
      sampled_duration min_years max_years most_likely_years u < (max_years : ℤ) := by
  have hr := pyTriangular_range (min_years : ℝ) (max_years : ℝ)
    (most_likely_years : ℝ) u (by exact_mod_cast hlm) (by exact_mod_cast hmh) h0 h1
  have ht0 : (0 : ℝ) ≤ pyTriangular (min_years : ℝ) (max_years : ℝ)
      (most_likely_years : ℝ) u :=
    le_trans (Nat.cast_nonneg min_years) hr.1
  unfold sampled_duration pyIntR
  rw [if_neg (not_lt.2 ht0)]
  constructor
  · apply Int.le_floor.2
    exact_mod_cast hr.1
  · apply Int.floor_lt.2
    exact_mod_cast hr.2

theorem C8_duration_range_witness :
    ((1 : ℕ) : ℤ) ≤ sampled_duration 1 5 2 0 ∧
      sampled_duration 1 5 2 0 < ((5 : ℕ) : ℤ) :=
  C8_duration_range 1 2 5 0 (by decide) (by decide) (le_refl 0) zero_lt_one

end RetirementSim
